import Mathlib

/-!
Shallow embedding of the deepagents storage utilities and proofs of the
spec claims about them.

Source files embedded:
* `libs/deepagents/deepagents/storage/checkpoint_utils.py`
  (`extract_last_messages`, `should_include_checkpoint`)
* `libs/deepagents/deepagents/storage/bookmarks.py`
  (`BookmarkManager.save` / `get` / `list` / `delete` over the
  `conversation_bookmarks` table)

Python strings are modelled as `List Char` (`Str`), timestamps as `Nat`
(only their order matters), the PostgreSQL table as a list of rows in
insertion order, and the generated UUID / timestamp of `save` as explicit
parameters of the embedded function.
-/

/-- A Python `str`, modelled as its character sequence. -/
abbrev Str := List Char

namespace CheckpointUtils

/-- One element of a `content` list in a message dict.  A block is either a
plain Python string, a dict (modelled by its `type` tag, absent when the
dict has no `"type"` key, and by its `"text"` value, where a missing
`"text"` key behaves exactly like the empty string because the code reads
`block.get("text", "")`), or a value of any other Python type. -/
inductive Block where
  | pystr (s : Str)
  | pydict (tag : Option String) (text : Str)
  | otherVal
deriving DecidableEq

/-- The `content` field of a message dict: a Python string, a list of
blocks, or any other value, the last carried by the string `str(content)`
coerces it to. -/
inductive Content where
  | str (s : Str)
  | blocks (bs : List Block)
  | otherVal (coerced : Str)
deriving DecidableEq

/-- A message dict as consumed by `extract_last_messages`: `msg.get("type", "")`
(so a missing `type` key is the empty string) and `msg.get("content", "")`. -/
structure Msg where
  type : String
  content : Content
deriving DecidableEq

/-- The text parts collected from a content-block list: the loop appends
`block.get("text", "")` for dict blocks whose `type` tag is `"text"`,
appends string blocks as they are, and skips every other block. -/
def blockTexts : List Block → List Str
  | [] => []
  | Block.pydict tag text :: bs =>
      if tag = some "text" then text :: blockTexts bs else blockTexts bs
  | Block.pystr s :: bs => s :: blockTexts bs
  | Block.otherVal :: bs => blockTexts bs

/-- Turn a `content` value into the string the code works with: a list is
replaced by its space-joined text parts (`" ".join(text_parts)`), a
non-string non-list value by `str(content)`. -/
def extractContent : Content → Str
  | Content.str s => s
  | Content.blocks bs => List.intercalate " ".toList (blockTexts bs)
  | Content.otherVal coerced => coerced

/-- Python slice `s[:k]` for a possibly negative bound `k`. -/
def pySlice (k : Int) (s : Str) : Str :=
  s.take (if 0 ≤ k then k.toNat else ((s.length : Int) + k).toNat)

/-- The truncation step of `extract_last_messages`:
`content[: max_length - 3] + "..."` when `len(content) > max_length`. -/
def truncate (maxLength : Nat) (s : Str) : Str :=
  if maxLength < s.length then pySlice ((maxLength : Int) - 3) s ++ "...".toList else s

/-- The full per-message processing of the loop body: block extraction /
coercion followed by truncation. -/
def processMsg (maxLength : Nat) (m : Msg) : Str :=
  truncate maxLength (extractContent m.content)

/-- The loop of `extract_last_messages` over the reversed message list,
carrying the `last_human` / `last_ai` slots and breaking as soon as both
are filled. -/
def extractAux (maxLength : Nat) : List Msg → Option Str → Option Str → Option Str × Option Str
  | [], lastHuman, lastAi => (lastHuman, lastAi)
  | m :: rest, lastHuman, lastAi =>
      let c := processMsg maxLength m
      let lastHuman' := if m.type = "human" ∧ lastHuman = none then some c else lastHuman
      let lastAi' :=
        if ¬(m.type = "human" ∧ lastHuman = none) ∧ m.type = "ai" ∧ lastAi = none then
          some c
        else lastAi
      if lastHuman'.isSome ∧ lastAi'.isSome then (lastHuman', lastAi')
      else extractAux maxLength rest lastHuman' lastAi'

/-- `extract_last_messages(messages, max_length)`. -/
def extract_last_messages (messages : List Msg) (maxLength : Nat) : Option Str × Option Str :=
  extractAux maxLength messages.reverse none none

/-- `should_include_checkpoint(checkpoint_metadata)`: the metadata dict is
modelled as an association list, `dict.get("source", "")` as a lookup with
default. -/
def should_include_checkpoint (checkpoint_metadata : List (String × String)) : Bool :=
  let source := (checkpoint_metadata.lookup "source").getD ""
  source == "input" || source == "loop" || source == "fork"

/-- First-of-two choice on options, used to state what the scanning loop
returns. -/
def optFirst (o p : Option Str) : Option Str :=
  match o with
  | some x => some x
  | none => p

/-- Block extraction as the spec sentence of C8 reads literally: ONLY dict
blocks explicitly tagged `text` contribute, everything else (including a
plain string block) is ignored.  Stated for comparison with `blockTexts`,
which the code implements. -/
def specOnlyTaggedTexts (bs : List Block) : List Str :=
  bs.filterMap fun b =>
    match b with
    | Block.pydict tag text => if tag = some "text" then some text else none
    | _ => none

end CheckpointUtils



namespace Bookmarks

/-- A row of the `conversation_bookmarks` table, which is also the
`Bookmark` dataclass returned by the manager.  `created_at` is a timestamp
modelled by a `Nat`; only its order is ever used. -/
structure Bookmark where
  id : String
  thread_id : String
  checkpoint_id : String
  name : Option String
  description : Option String
  created_at : Nat
deriving DecidableEq

/-- The table contents, in insertion order. -/
abbrev Store := List Bookmark

/-- The error `save` raises when the `UNIQUE (name)` constraint rejects the
insert (surfaced as a `ValueError` distinct from connection failures). -/
inductive SaveError where
  | nameConflict
deriving DecidableEq

namespace BookmarkManager

/-- The SQL predicate `name = %s OR id = %s` used by `get` and `delete`
(a row whose `name` is NULL never matches the `name` disjunct). -/
def matchesIdent (identifier : String) (r : Bookmark) : Bool :=
  r.name == some identifier || r.id == identifier

/-- `BookmarkManager.save`.  The freshly generated `str(uuid4())` and
`datetime.now(timezone.utc)` are passed in as `bookmark_id` and
`created_at`.  The `UNIQUE (name)` constraint rejects the insert exactly
when the new name is non-NULL and equals an existing row's name, in which
case the transaction leaves the table unchanged and the caller sees the
name-conflict error; otherwise the row is inserted and the function
returns the `Bookmark` built from the very values it inserted. -/
def save (st : Store) (bookmark_id : String) (created_at : Nat)
    (thread_id checkpoint_id : String) (name description : Option String) :
    Except SaveError Bookmark × Store :=
  if name.isSome ∧ ∃ r ∈ st, r.name = name then
    (Except.error SaveError.nameConflict, st)
  else
    let bm : Bookmark :=
      { id := bookmark_id, thread_id := thread_id, checkpoint_id := checkpoint_id,
        name := name, description := description, created_at := created_at }
    (Except.ok bm, st ++ [bm])

/-- `BookmarkManager.get`: `SELECT ... WHERE name = %s OR id = %s LIMIT 1`,
the single returned row taken in table order. -/
def get (st : Store) (identifier : String) : Option Bookmark :=
  st.find? (matchesIdent identifier)

/-- The descending `created_at` order of `ORDER BY created_at DESC`. -/
def createdDesc (a b : Bookmark) : Prop :=
  b.created_at ≤ a.created_at

instance : DecidableRel createdDesc := fun a b => Nat.decLe b.created_at a.created_at

instance : IsTotal Bookmark createdDesc :=
  ⟨fun a b => Nat.le_total b.created_at a.created_at⟩

instance : IsTrans Bookmark createdDesc :=
  ⟨fun _ _ _ hab hbc => Nat.le_trans hbc hab⟩

/-- Python truthiness of the `thread_id: str | None` argument: `None` and
the empty string are both falsy. -/
def truthy : Option String → Bool
  | none => false
  | some s => !(s == "")

/-- `BookmarkManager.list`: filter by `thread_id` only when the argument is
truthy, then `ORDER BY created_at DESC` (modelled by a stable sort). -/
def list (st : Store) (thread_id : Option String) : List Bookmark :=
  let rows :=
    if truthy thread_id then st.filter (fun r => r.thread_id == thread_id.getD "") else st
  List.insertionSort createdDesc rows

/-- `BookmarkManager.delete`: `DELETE ... WHERE name = %s OR id = %s` has no
row limit, so every matching row goes; the returned flag is
`cur.rowcount > 0`. -/
def delete (st : Store) (identifier : String) : Bool × Store :=
  (st.any (matchesIdent identifier), st.filter (fun r => !(matchesIdent identifier r)))

end BookmarkManager

end Bookmarks

namespace CheckpointUtils

theorem extractAux_eq (mx : Nat) (l : List Msg) :
    ∀ h a : Option Str,
      extractAux mx l h a =
        (optFirst h (Option.map (processMsg mx) (l.find? (fun m => m.type == "human"))),
         optFirst a (Option.map (processMsg mx) (l.find? (fun m => m.type == "ai")))) := by
  induction l with
  | nil => intro h a; cases h <;> cases a <;> simp [extractAux, optFirst]
  | cons m rest ih =>
    intro h a
    by_cases hh : m.type = "human"
    · have hai : ¬ m.type = "ai" := by rw [hh]; decide
      cases h <;> cases a <;>
        simp [extractAux, optFirst, hh, hai, ih]
    · by_cases hai : m.type = "ai"
      · cases h <;> cases a <;>
          simp [extractAux, optFirst, hh, hai, ih]
      · cases h <;> cases a <;>
          simp [extractAux, optFirst, hh, hai, ih]

/-- The loop started with both slots empty returns, for each role, the
processed content of the first matching message of the scanned list. -/
theorem extract_eq_find (mx : Nat) (l : List Msg) :
    extract_last_messages l mx =
      (Option.map (processMsg mx) (l.reverse.find? (fun m => m.type == "human")),
       Option.map (processMsg mx) (l.reverse.find? (fun m => m.type == "ai"))) := by
  unfold extract_last_messages
  rw [extractAux_eq]
  rfl

theorem find?_filter_imp {α : Type _} (p q : α → Bool)
    (hpq : ∀ x, p x = true → q x = true) :
    ∀ l : List α, (l.filter q).find? p = l.find? p := by
  intro l
  induction l with
  | nil => rfl
  | cons a l ih =>
    by_cases hq : q a = true
    · rw [List.filter_cons_of_pos hq]
      by_cases hp : p a = true
      · rw [List.find?_cons_of_pos _ hp, List.find?_cons_of_pos _ hp]
      · rw [List.find?_cons_of_neg _ hp, List.find?_cons_of_neg _ hp, ih]
    · have hp : ¬ p a = true := fun h => hq (hpq a h)
      rw [List.filter_cons_of_neg hq, List.find?_cons_of_neg _ hp, ih]

end CheckpointUtils

open CheckpointUtils in
/-- C5: `should_include_checkpoint(metadata)` returns true iff the `source`
field is present and equal to one of `"input"`, `"loop"`, `"fork"`; a
missing `source` or any other value (e.g. `"tool"`) yields false. -/
theorem should_include_checkpoint_iff (metadata : List (String × String)) :
    should_include_checkpoint metadata = true ↔
      metadata.lookup "source" = some "input" ∨ metadata.lookup "source" = some "loop" ∨
        metadata.lookup "source" = some "fork" := by
  cases hmd : metadata.lookup "source" with
  | none => simp [should_include_checkpoint, hmd]
  | some s => simp [should_include_checkpoint, hmd, or_assoc]

open CheckpointUtils in
/-- C3 counterexample: the truncation contract fails as stated for
`max_length = 2`: a captured text of length 3 exceeds the limit, yet the
result `"ab..."` has 5 characters, not `max_length = 2` (Python slices
`content[: 2 - 3]` from the wrong end when `max_length < 3`). -/
theorem truncation_cex :
    (extract_last_messages
        [{ type := "human", content := Content.str "abc".toList }] 2).1 =
      some "ab...".toList ∧
    ("ab...".toList).length ≠ 2 := by
  constructor
  · rfl
  · decide

open CheckpointUtils in
/-- C3 amended: for every `max_length ≥ 3` the truncation step of
`extract_last_messages` leaves a captured text of length at most
`max_length` unchanged, and turns a longer one into exactly its first
`max_length - 3` characters followed by the three-character `"..."`,
for `max_length` characters in total. -/
theorem truncation_spec (mx : Nat) (s : Str) (hmx : 3 ≤ mx) :
    (s.length ≤ mx → truncate mx s = s) ∧
    (mx < s.length →
      truncate mx s = s.take (mx - 3) ++ "...".toList ∧
      (truncate mx s).length = mx) := by
  constructor
  · intro hle
    unfold truncate
    rw [if_neg (by omega)]
  · intro hlt
    have htr : truncate mx s = s.take (mx - 3) ++ "...".toList := by
      unfold truncate pySlice
      rw [if_pos hlt, if_pos (by omega : (0 : Int) ≤ (mx : Int) - 3)]
      have : ((mx : Int) - 3).toNat = mx - 3 := by omega
      rw [this]
    refine ⟨htr, ?_⟩
    rw [htr, List.length_append, List.length_take]
    have h3 : ("...".toList).length = 3 := by decide
    rw [h3, Nat.min_eq_left (by omega)]
    omega

open CheckpointUtils in
/-- Witness for the amended C3 theorem at `max_length = 10` on a
15-character text. -/
theorem truncation_spec_witness :
    truncate 10 "abcdefghijklmno".toList =
      ("abcdefghijklmno".toList).take 7 ++ "...".toList ∧
    (truncate 10 "abcdefghijklmno".toList).length = 10 :=
  (truncation_spec 10 "abcdefghijklmno".toList (by decide)).2 (by decide)

open CheckpointUtils in
/-- C8 counterexample: a plain string block contributes its text even
though it is not a block explicitly tagged `text`, so "only blocks
explicitly tagged text contribute" is false as stated: on
`content = ["hi"]` the code yields `"hi"` while the only-tagged-blocks
reading yields the empty string. -/
theorem block_extraction_cex :
    extractContent (Content.blocks [Block.pystr "hi".toList]) = "hi".toList ∧
    List.intercalate " ".toList (specOnlyTaggedTexts [Block.pystr "hi".toList]) = [] ∧
    "hi".toList ≠ ([] : Str) := by
  refine ⟨rfl, rfl, by decide⟩

open CheckpointUtils in
/-- C8 amended: in `extract_last_messages`, when content is a list of
blocks, a dict block tagged `text` contributes its `text` field, a plain
string block contributes itself, and every other block is ignored; the
contributions are joined in order with single spaces.  Content that is
neither a string nor a list is coerced to its textual representation. -/
theorem block_extraction_spec (bs : List Block) (r : Str) :
    extractContent (Content.blocks bs) =
      List.intercalate " ".toList
        (bs.filterMap fun b =>
          match b with
          | Block.pydict tag text => if tag = some "text" then some text else none
          | Block.pystr s => some s
          | Block.otherVal => none) ∧
    extractContent (Content.otherVal r) = r := by
  refine ⟨?_, rfl⟩
  show List.intercalate " ".toList (blockTexts bs) = _
  congr 1
  induction bs with
  | nil => rfl
  | cons b rest ih =>
    cases b with
    | pystr s => simp [blockTexts, List.filterMap_cons, ih]
    | pydict tag text =>
      by_cases htag : tag = some "text" <;>
        simp [blockTexts, List.filterMap_cons, htag, ih]
    | otherVal => simp [blockTexts, List.filterMap_cons, ih]

open CheckpointUtils in
/-- C4: `extract_last_messages` returns the processed (block-extracted and
truncated) content of the most recent `human` message and of the most
recent `ai` message, each absent when no such message exists; messages of
other roles never affect the returned texts; and the backward scan stops
as soon as both roles are captured, so older messages cannot change the
result once both roles occur. -/
theorem extract_last_messages_spec (messages : List Msg) (mx : Nat) :
    extract_last_messages messages mx =
      (Option.map (processMsg mx) (messages.reverse.find? (fun m => m.type == "human")),
       Option.map (processMsg mx) (messages.reverse.find? (fun m => m.type == "ai"))) ∧
    extract_last_messages (messages.filter (fun m => m.type == "human" || m.type == "ai")) mx =
      extract_last_messages messages mx ∧
    ∀ older : List Msg,
      (∃ hm ∈ messages, hm.type = "human") → (∃ am ∈ messages, am.type = "ai") →
      extract_last_messages (older ++ messages) mx = extract_last_messages messages mx := by
  refine ⟨extract_eq_find mx messages, ?_, ?_⟩
  · rw [extract_eq_find, extract_eq_find, ← List.filter_reverse]
    rw [find?_filter_imp (fun m : Msg => m.type == "human")
          (fun m : Msg => m.type == "human" || m.type == "ai") (by intro x hx; simp_all)]
    rw [find?_filter_imp (fun m : Msg => m.type == "ai")
          (fun m : Msg => m.type == "human" || m.type == "ai") (by intro x hx; simp_all)]
  · intro older hh ha
    rw [extract_eq_find, extract_eq_find, List.reverse_append]
    obtain ⟨hm, hmem, htype⟩ := hh
    obtain ⟨am, amem, atype⟩ := ha
    have hsome : (messages.reverse.find? (fun m => m.type == "human")).isSome :=
      List.find?_isSome.mpr ⟨hm, List.mem_reverse.mpr hmem, by simp [htype]⟩
    have asome : (messages.reverse.find? (fun m => m.type == "ai")).isSome :=
      List.find?_isSome.mpr ⟨am, List.mem_reverse.mpr amem, by simp [atype]⟩
    rw [List.find?_append, List.find?_append,
      Option.or_of_isSome hsome, Option.or_of_isSome asome]

open CheckpointUtils in
/-- Witness for C4: prepending an older tool message to a history that
already contains a human and an ai message does not change the result. -/
theorem extract_last_messages_spec_witness :
    extract_last_messages
        ([{ type := "tool", content := Content.str "t".toList }] ++
          [{ type := "human", content := Content.str "hi".toList },
           { type := "ai", content := Content.str "yo".toList }]) 100 =
      extract_last_messages
        [{ type := "human", content := Content.str "hi".toList },
         { type := "ai", content := Content.str "yo".toList }] 100 :=
  (extract_last_messages_spec
      [{ type := "human", content := Content.str "hi".toList },
       { type := "ai", content := Content.str "yo".toList }] 100).2.2
    [{ type := "tool", content := Content.str "t".toList }] (by decide) (by decide)

open Bookmarks Bookmarks.BookmarkManager in
/-- C1: a successful `save` with a non-null name followed by `get(name)` on
the resulting store returns the bookmark `save` returned, whose
`thread_id`, `checkpoint_id`, `name` and `description` are the arguments
and whose `id` and `created_at` are exactly the freshly generated values.
Hypotheses: no existing row holds the name (so the save succeeds) and the
name does not collide with any existing row's id — the pathological case
that §4.1 of the spec treats as unreachable. -/
theorem save_get_roundtrip (st : Store) (bookmark_id : String) (created_at : Nat)
    (thread_id checkpoint_id n : String) (description : Option String)
    (hname : ∀ r ∈ st, r.name ≠ some n) (hid : ∀ r ∈ st, r.id ≠ n) :
    ∃ bm st',
      save st bookmark_id created_at thread_id checkpoint_id (some n) description =
        (Except.ok bm, st') ∧
      get st' n = some bm ∧
      bm.thread_id = thread_id ∧ bm.checkpoint_id = checkpoint_id ∧ bm.name = some n ∧
      bm.description = description ∧ bm.id = bookmark_id ∧ bm.created_at = created_at := by
  have hguard : ¬((some n : Option String).isSome ∧ ∃ r ∈ st, r.name = some n) := by
    rintro ⟨-, r, hr, hrn⟩
    exact hname r hr hrn
  refine ⟨{ id := bookmark_id, thread_id := thread_id, checkpoint_id := checkpoint_id,
            name := some n, description := description, created_at := created_at },
          st ++ [{ id := bookmark_id, thread_id := thread_id, checkpoint_id := checkpoint_id,
                   name := some n, description := description, created_at := created_at }],
          ?_, ?_, rfl, rfl, rfl, rfl, rfl, rfl⟩
  · unfold save
    rw [if_neg hguard]
  · unfold BookmarkManager.get
    rw [List.find?_append]
    have h1 : st.find? (matchesIdent n) = none :=
      List.find?_eq_none.mpr (fun r hr => by
        simp [matchesIdent, hname r hr, hid r hr])
    rw [h1]
    simp [matchesIdent]

open Bookmarks Bookmarks.BookmarkManager in
/-- Witness for C1 on the empty store. -/
theorem save_get_roundtrip_witness :
    ∃ bm st',
      save [] "id-1" 0 "t" "cp" (some "nm") none = (Except.ok bm, st') ∧
      get st' "nm" = some bm ∧
      bm.thread_id = "t" ∧ bm.checkpoint_id = "cp" ∧ bm.name = some "nm" ∧
      bm.description = none ∧ bm.id = "id-1" ∧ bm.created_at = 0 :=
  save_get_roundtrip [] "id-1" 0 "t" "cp" "nm" none (by simp) (by simp)

open Bookmarks Bookmarks.BookmarkManager in
/-- C2: a `save` whose non-null name already exists fails with the
name-conflict error and leaves the store unchanged, and of two sequential
saves with the same non-null name exactly one succeeds: the first save
succeeds and the second fails with the name-conflict error on the store
the first produced. -/
theorem save_name_conflict (st : Store) (n : String) (id1 id2 : String) (ts1 ts2 : Nat)
    (tid1 cp1 tid2 cp2 : String) (d1 d2 : Option String)
    (hfree : ∀ r ∈ st, r.name ≠ some n) :
    (∀ st₀ : Store, (∃ r ∈ st₀, r.name = some n) →
        save st₀ id2 ts2 tid2 cp2 (some n) d2 = (Except.error SaveError.nameConflict, st₀)) ∧
    ∃ bm st',
      save st id1 ts1 tid1 cp1 (some n) d1 = (Except.ok bm, st') ∧
      save st' id2 ts2 tid2 cp2 (some n) d2 = (Except.error SaveError.nameConflict, st') := by
  have hconf : ∀ st₀ : Store, (∃ r ∈ st₀, r.name = some n) →
      save st₀ id2 ts2 tid2 cp2 (some n) d2 = (Except.error SaveError.nameConflict, st₀) := by
    intro st₀ hex
    unfold save
    rw [if_pos ⟨rfl, hex⟩]
  refine ⟨hconf, ?_⟩
  have hguard : ¬((some n : Option String).isSome ∧ ∃ r ∈ st, r.name = some n) := by
    rintro ⟨-, r, hr, hrn⟩
    exact hfree r hr hrn
  refine ⟨{ id := id1, thread_id := tid1, checkpoint_id := cp1,
            name := some n, description := d1, created_at := ts1 },
          st ++ [{ id := id1, thread_id := tid1, checkpoint_id := cp1,
                   name := some n, description := d1, created_at := ts1 }], ?_, ?_⟩
  · unfold save
    rw [if_neg hguard]
  · exact hconf _ ⟨_, List.mem_append_right st (List.mem_singleton_self _), rfl⟩

open Bookmarks Bookmarks.BookmarkManager in
/-- Witness for C2 on the empty store. -/
theorem save_name_conflict_witness :
    (∀ st₀ : Store, (∃ r ∈ st₀, r.name = some "nm") →
        save st₀ "id-2" 1 "t2" "cp2" (some "nm") none =
          (Except.error SaveError.nameConflict, st₀)) ∧
    ∃ bm st',
      save [] "id-1" 0 "t1" "cp1" (some "nm") none = (Except.ok bm, st') ∧
      save st' "id-2" 1 "t2" "cp2" (some "nm") none =
        (Except.error SaveError.nameConflict, st') :=
  save_name_conflict [] "nm" "id-1" "id-2" 0 1 "t1" "cp1" "t2" "cp2" none none (by simp)

open Bookmarks Bookmarks.BookmarkManager in
/-- C9: when the uniqueness constraint does not fire, `save` inserts
exactly one new row built from the generated identifier and timestamp and
returns that row, so the returned `id` and `created_at` equal the stored
ones; and when the generated identifier is fresh, it identifies the new
row uniquely in the table. -/
theorem save_returns_stored (st : Store) (bookmark_id : String) (created_at : Nat)
    (thread_id checkpoint_id : String) (name description : Option String)
    (hok : ¬(name.isSome ∧ ∃ r ∈ st, r.name = name)) :
    ∃ bm,
      save st bookmark_id created_at thread_id checkpoint_id name description =
        (Except.ok bm, st ++ [bm]) ∧
      bm = { id := bookmark_id, thread_id := thread_id, checkpoint_id := checkpoint_id,
             name := name, description := description, created_at := created_at } ∧
      ((∀ r ∈ st, r.id ≠ bookmark_id) →
        (st ++ [bm]).filter (fun r => r.id == bookmark_id) = [bm]) := by
  refine ⟨{ id := bookmark_id, thread_id := thread_id, checkpoint_id := checkpoint_id,
            name := name, description := description, created_at := created_at },
          ?_, rfl, ?_⟩
  · unfold save
    rw [if_neg hok]
  · intro hfresh
    rw [List.filter_append]
    have h1 : st.filter (fun r => r.id == bookmark_id) = [] :=
      List.filter_eq_nil_iff.mpr (fun r hr => by simp [hfresh r hr])
    rw [h1]
    simp

open Bookmarks Bookmarks.BookmarkManager in
/-- Witness for C9 on the empty store. -/
theorem save_returns_stored_witness :
    ∃ bm,
      save [] "id-1" 0 "t" "cp" (some "nm") none = (Except.ok bm, [] ++ [bm]) ∧
      bm = { id := "id-1", thread_id := "t", checkpoint_id := "cp",
             name := some "nm", description := none, created_at := 0 } ∧
      ((∀ r ∈ ([] : Store), r.id ≠ "id-1") →
        (([] : Store) ++ [bm]).filter (fun r => r.id == "id-1") = [bm]) :=
  save_returns_stored [] "id-1" 0 "t" "cp" (some "nm") none (by simp)

open Bookmarks Bookmarks.BookmarkManager in
/-- C7: absence is never an error: when no row's name or id matches the
identifier, `get` returns `none` and `delete` returns `false` with the
store unchanged; and for any store whatsoever a second `delete` of the
same identifier returns `false`, so `delete` is idempotent in effect. -/
theorem absence_not_error (st : Store) (identifier : String)
    (habs : ∀ r ∈ st, matchesIdent identifier r = false) :
    get st identifier = none ∧
    delete st identifier = (false, st) ∧
    ∀ (st₀ : Store) (i : String),
      (delete (delete st₀ i).2 i).1 = false := by
  refine ⟨?_, ?_, ?_⟩
  · exact List.find?_eq_none.mpr (fun r hr => by simp [habs r hr])
  · unfold delete
    have h1 : st.any (matchesIdent identifier) = false :=
      List.any_eq_false.mpr (fun r hr => by simp [habs r hr])
    have h2 : st.filter (fun r => !(matchesIdent identifier r)) = st :=
      List.filter_eq_self.mpr (fun r hr => by simp [habs r hr])
    rw [h1, h2]
  · intro st₀ i
    unfold delete
    refine List.any_eq_false.mpr ?_
    intro r hr
    have hkeep := (List.mem_filter.mp hr).2
    simp only [Bool.not_eq_true'] at hkeep
    simp [hkeep]

open Bookmarks Bookmarks.BookmarkManager in
/-- Witness for C7 on a one-row store and an identifier matching nothing. -/
theorem absence_not_error_witness :
    get [{ id := "a", thread_id := "t", checkpoint_id := "c",
           name := some "x", description := none, created_at := 0 }] "zzz" = none ∧
    delete [{ id := "a", thread_id := "t", checkpoint_id := "c",
              name := some "x", description := none, created_at := 0 }] "zzz" =
      (false, [{ id := "a", thread_id := "t", checkpoint_id := "c",
                 name := some "x", description := none, created_at := 0 }]) ∧
    ∀ (st₀ : Store) (i : String),
      (delete (delete st₀ i).2 i).1 = false :=
  absence_not_error
    [{ id := "a", thread_id := "t", checkpoint_id := "c",
       name := some "x", description := none, created_at := 0 }] "zzz" (by decide)

open Bookmarks Bookmarks.BookmarkManager in
/-- C10: the DELETE has no row limit: the resulting store drops every
matching row and the flag is true exactly when some row matched; in the
pathological case of a row whose name coincides with a different row's id,
one `delete` removes both rows and returns true, while `get` still
returns at most the single first matching row. -/
theorem delete_dual_match (st : Store) (identifier : String) (r1 r2 : Bookmark)
    (h1 : r1 ∈ st) (h2 : r2 ∈ st)
    (hn : r1.name = some identifier) (hi : r2.id = identifier) :
    (delete st identifier).2 =
      st.filter (fun r => !(matchesIdent identifier r)) ∧
    ((delete st identifier).1 = true ↔
      ∃ r ∈ st, matchesIdent identifier r = true) ∧
    (delete st identifier).1 = true ∧
    r1 ∉ (delete st identifier).2 ∧
    r2 ∉ (delete st identifier).2 ∧
    ∃ bm, get st identifier = some bm := by
  have hm1 : matchesIdent identifier r1 = true := by
    simp [matchesIdent, hn]
  have hm2 : matchesIdent identifier r2 = true := by
    simp [matchesIdent, hi]
  refine ⟨rfl, ?_, ?_, ?_, ?_, ?_⟩
  · simp [delete]
  · exact List.any_eq_true.mpr ⟨r1, h1, hm1⟩
  · intro hmem
    have := (List.mem_filter.mp hmem).2
    rw [hm1] at this
    exact absurd this (by decide)
  · intro hmem
    have := (List.mem_filter.mp hmem).2
    rw [hm2] at this
    exact absurd this (by decide)
  · have hsome : (st.find? (matchesIdent identifier)).isSome :=
      List.find?_isSome.mpr ⟨r1, h1, hm1⟩
    exact Option.isSome_iff_exists.mp hsome

open Bookmarks Bookmarks.BookmarkManager in
/-- Witness for C10: deleting `"x"` from a store holding one row named
`"x"` and a different row with id `"x"` removes both and returns true. -/
theorem delete_dual_match_witness :
    (delete [{ id := "a", thread_id := "t", checkpoint_id := "c",
               name := some "x", description := none, created_at := 0 },
             { id := "x", thread_id := "u", checkpoint_id := "d",
               name := some "y", description := none, created_at := 1 }] "x").2 =
      ([{ id := "a", thread_id := "t", checkpoint_id := "c",
          name := some "x", description := none, created_at := 0 },
        { id := "x", thread_id := "u", checkpoint_id := "d",
          name := some "y", description := none, created_at := 1 }] : Store).filter
        (fun r => !(matchesIdent "x" r)) ∧
    ((delete [{ id := "a", thread_id := "t", checkpoint_id := "c",
                name := some "x", description := none, created_at := 0 },
              { id := "x", thread_id := "u", checkpoint_id := "d",
                name := some "y", description := none, created_at := 1 }] "x").1 = true ↔
      ∃ r ∈ ([{ id := "a", thread_id := "t", checkpoint_id := "c",
                name := some "x", description := none, created_at := 0 },
              { id := "x", thread_id := "u", checkpoint_id := "d",
                name := some "y", description := none, created_at := 1 }] : Store),
        matchesIdent "x" r = true) ∧
    (delete [{ id := "a", thread_id := "t", checkpoint_id := "c",
               name := some "x", description := none, created_at := 0 },
             { id := "x", thread_id := "u", checkpoint_id := "d",
               name := some "y", description := none, created_at := 1 }] "x").1 = true ∧
    { id := "a", thread_id := "t", checkpoint_id := "c",
      name := some "x", description := none, created_at := 0 } ∉
      (delete [{ id := "a", thread_id := "t", checkpoint_id := "c",
                 name := some "x", description := none, created_at := 0 },
               { id := "x", thread_id := "u", checkpoint_id := "d",
                 name := some "y", description := none, created_at := 1 }] "x").2 ∧
    { id := "x", thread_id := "u", checkpoint_id := "d",
      name := some "y", description := none, created_at := 1 } ∉
      (delete [{ id := "a", thread_id := "t", checkpoint_id := "c",
                 name := some "x", description := none, created_at := 0 },
               { id := "x", thread_id := "u", checkpoint_id := "d",
                 name := some "y", description := none, created_at := 1 }] "x").2 ∧
    ∃ bm, get [{ id := "a", thread_id := "t", checkpoint_id := "c",
                 name := some "x", description := none, created_at := 0 },
               { id := "x", thread_id := "u", checkpoint_id := "d",
                 name := some "y", description := none, created_at := 1 }] "x" = some bm :=
  delete_dual_match _ "x"
    { id := "a", thread_id := "t", checkpoint_id := "c",
      name := some "x", description := none, created_at := 0 }
    { id := "x", thread_id := "u", checkpoint_id := "d",
      name := some "y", description := none, created_at := 1 }
    (by decide) (by decide) rfl rfl

open Bookmarks Bookmarks.BookmarkManager in
/-- C6 counterexample: `list` does not filter by "that exact argument" for
every thread_id: because the code checks Python truthiness
(`if thread_id:`), `list("")` returns every bookmark, here one whose
`thread_id` is `"t" ≠ ""`. -/
theorem list_empty_thread_cex :
    list [{ id := "id1", thread_id := "t", checkpoint_id := "cp",
            name := none, description := none, created_at := 0 }] (some "") =
      [{ id := "id1", thread_id := "t", checkpoint_id := "cp",
         name := none, description := none, created_at := 0 }] ∧
    ({ id := "id1", thread_id := "t", checkpoint_id := "cp",
       name := none, description := none, created_at := 0 } : Bookmark).thread_id ≠ "" := by
  exact ⟨rfl, by decide⟩

open Bookmarks Bookmarks.BookmarkManager in
/-- C6 amended: for every non-empty thread_id, `list(thread_id)` returns
exactly the bookmarks whose `thread_id` equals that argument, ordered by
`created_at` descending; `list()` with no argument returns all bookmarks
in the same order; a thread with no bookmarks yields the empty sequence;
and `list("")` behaves like `list()` (the truthiness check treats the
empty string as no filter). -/
theorem list_spec (st : Store) (t : String) (ht : t ≠ "") :
    List.Perm (list st (some t)) (st.filter (fun r => r.thread_id == t)) ∧
    (list st (some t)).Sorted createdDesc ∧
    List.Perm (list st none) st ∧
    (list st none).Sorted createdDesc ∧
    list st (some "") = list st none ∧
    ((∀ r ∈ st, r.thread_id ≠ t) → list st (some t) = []) := by
  have htr : truthy (some t) = true := by
    simp [truthy, ht]
  refine ⟨?_, ?_, ?_, ?_, rfl, ?_⟩
  · simp only [list, htr, if_pos, Option.getD_some]
    exact List.perm_insertionSort createdDesc _
  · simp only [list, htr, if_pos]
    exact List.sorted_insertionSort createdDesc _
  · simp only [list, truthy, Bool.false_eq_true, if_false]
    exact List.perm_insertionSort createdDesc st
  · simp only [list, truthy, Bool.false_eq_true, if_false]
    exact List.sorted_insertionSort createdDesc st
  · intro hnone
    have hfil : st.filter (fun r => r.thread_id == t) = [] :=
      List.filter_eq_nil_iff.mpr (fun r hr => by simp [hnone r hr])
    simp only [list, htr, if_pos, Option.getD_some, hfil]
    rfl

open Bookmarks Bookmarks.BookmarkManager in
/-- Witness for the amended C6 theorem on a two-row store with two
different threads. -/
theorem list_spec_witness :
    List.Perm
      (list
        [{ id := "a", thread_id := "t", checkpoint_id := "c",
           name := none, description := none, created_at := 0 },
         { id := "b", thread_id := "u", checkpoint_id := "d",
           name := none, description := none, created_at := 5 }]
        (some "t"))
      (List.filter (fun r => r.thread_id == "t")
        [{ id := "a", thread_id := "t", checkpoint_id := "c",
           name := none, description := none, created_at := 0 },
         { id := "b", thread_id := "u", checkpoint_id := "d",
           name := none, description := none, created_at := 5 }]) ∧
    List.Sorted createdDesc
      (list
        [{ id := "a", thread_id := "t", checkpoint_id := "c",
           name := none, description := none, created_at := 0 },
         { id := "b", thread_id := "u", checkpoint_id := "d",
           name := none, description := none, created_at := 5 }]
        (some "t")) ∧
    List.Perm
      (list
        [{ id := "a", thread_id := "t", checkpoint_id := "c",
           name := none, description := none, created_at := 0 },
         { id := "b", thread_id := "u", checkpoint_id := "d",
           name := none, description := none, created_at := 5 }]
        none)
      [{ id := "a", thread_id := "t", checkpoint_id := "c",
         name := none, description := none, created_at := 0 },
       { id := "b", thread_id := "u", checkpoint_id := "d",
         name := none, description := none, created_at := 5 }] ∧
    List.Sorted createdDesc
      (list
        [{ id := "a", thread_id := "t", checkpoint_id := "c",
           name := none, description := none, created_at := 0 },
         { id := "b", thread_id := "u", checkpoint_id := "d",
           name := none, description := none, created_at := 5 }]
        none) ∧
    list
        [{ id := "a", thread_id := "t", checkpoint_id := "c",
           name := none, description := none, created_at := 0 },
         { id := "b", thread_id := "u", checkpoint_id := "d",
           name := none, description := none, created_at := 5 }]
        (some "") =
      list
        [{ id := "a", thread_id := "t", checkpoint_id := "c",
           name := none, description := none, created_at := 0 },
         { id := "b", thread_id := "u", checkpoint_id := "d",
           name := none, description := none, created_at := 5 }]
        none ∧
    ((∀ r ∈
        [({ id := "a", thread_id := "t", checkpoint_id := "c",
            name := none, description := none, created_at := 0 } : Bookmark),
         { id := "b", thread_id := "u", checkpoint_id := "d",
           name := none, description := none, created_at := 5 }],
        r.thread_id ≠ "t") →
      list
        [{ id := "a", thread_id := "t", checkpoint_id := "c",
           name := none, description := none, created_at := 0 },
         { id := "b", thread_id := "u", checkpoint_id := "d",
           name := none, description := none, created_at := 5 }]
        (some "t") = []) :=
  list_spec
    [{ id := "a", thread_id := "t", checkpoint_id := "c",
       name := none, description := none, created_at := 0 },
     { id := "b", thread_id := "u", checkpoint_id := "d",
       name := none, description := none, created_at := 5 }] "t" (by decide)
